import Mathlib

/-!
Verification of the pKVM FF-A host proxy (`hyp/nvhe/ffa.c` of this kernel
tree): a shallow embedding of the mediator that filters host-issued FF-A
memory-management SMC calls, together with proofs of its error-handling and
rollback properties.

Machine registers are modelled as unsigned 64-bit values carried as `Nat`
(error codes are stored in registers as their two's-complement image via
`u64OfInt`); the C `int` return codes are modelled as `Int`.  The external
downstream authority (the SPMD at EL3) is modelled as an oracle: each
mediated operation receives the response registers the downstream would
produce for the single call the mediator may issue to it.
-/

/-! ## Protocol constants (values from `include/linux/arm_ffa.h`) -/

def FFA_ERROR : Nat := 0x84000060
def FFA_SUCCESS : Nat := 0x84000061
def FFA_FEATURES : Nat := 0x84000064
def FFA_RXTX_MAP : Nat := 0x84000066
def FFA_FN64_RXTX_MAP : Nat := 0xC4000066
def FFA_RXTX_UNMAP : Nat := 0x84000067
def FFA_MSG_POLL : Nat := 0x8400006A
def FFA_MSG_WAIT : Nat := 0x8400006B
def FFA_MSG_SEND : Nat := 0x8400006E
def FFA_MSG_SEND_DIRECT_REQ : Nat := 0x8400006F
def FFA_MSG_SEND_DIRECT_RESP : Nat := 0x84000070
def FFA_MEM_DONATE : Nat := 0x84000071
def FFA_FN64_MEM_DONATE : Nat := 0xC4000071
def FFA_MEM_LEND : Nat := 0x84000072
def FFA_FN64_MEM_LEND : Nat := 0xC4000072
def FFA_MEM_SHARE : Nat := 0x84000073
def FFA_FN64_MEM_SHARE : Nat := 0xC4000073
def FFA_MEM_RETRIEVE_REQ : Nat := 0x84000074
def FFA_FN64_MEM_RETRIEVE_REQ : Nat := 0xC4000074
def FFA_MEM_RETRIEVE_RESP : Nat := 0x84000075
def FFA_MEM_RELINQUISH : Nat := 0x84000076
def FFA_MEM_RECLAIM : Nat := 0x84000077
def FFA_MEM_OP_PAUSE : Nat := 0x84000078
def FFA_MEM_OP_RESUME : Nat := 0x84000079
def FFA_MEM_FRAG_RX : Nat := 0x8400007A
def FFA_MEM_FRAG_TX : Nat := 0x8400007B

def FFA_RET_SUCCESS : Int := 0
def FFA_RET_NOT_SUPPORTED : Int := -1
def FFA_RET_INVALID_PARAMETERS : Int := -2
def FFA_RET_DENIED : Int := -6
def FFA_RET_ABORTED : Int := -8

/-- FF-A function-number window guarded by `is_ffa_call` (`nvhe/ffa.h`). -/
def FFA_MIN_FUNC_NUM : Nat := 0x60

def FFA_MAX_FUNC_NUM : Nat := 0x7F

/-- "ID value 0 must be returned at the Non-secure physical FF-A instance". -/
def HOST_FFA_ID : Nat := 0

def PAGE_SIZE : Nat := 4096

def FFA_PAGE_SIZE : Nat := 4096

def KVM_FFA_MBOX_NR_PAGES : Nat := 1

/-! Struct sizes from `include/linux/arm_ffa.h` (fixed wire layout). -/

def sizeof_ffa_mem_region : Nat := 32

def sizeof_ffa_mem_region_attributes : Nat := 16

def sizeof_ffa_composite_mem_region : Nat := 16

def sizeof_ffa_mem_region_addr_range : Nat := 16

/-! ## Registers and result encoding -/

/-- The image of a C `int` stored into a `u64` register. -/
def u64OfInt (i : Int) : Nat := (i % (2 ^ 64 : Int)).toNat

/-- The C conversion of a `u64` register value to a 32-bit `int`. -/
def intOfU32 (n : Nat) : Int :=
  if n % 2 ^ 32 < 2 ^ 31 then ((n % 2 ^ 32 : Nat) : Int)
  else ((n % 2 ^ 32 : Nat) : Int) - 2 ^ 32

/-- `struct arm_smccc_res`: the four SMC result registers. -/
structure SmccRes where
  a0 : Nat
  a1 : Nat
  a2 : Nat
  a3 : Nat
deriving DecidableEq, Repr

def ffa_to_smccc_error (ffa_errno : Int) : SmccRes :=
  { a0 := FFA_ERROR, a1 := 0, a2 := u64OfInt ffa_errno, a3 := 0 }

def ffa_to_smccc_res_prop (ret : Int) (prop : Nat) : SmccRes :=
  if ret = FFA_RET_SUCCESS then { a0 := FFA_SUCCESS, a1 := 0, a2 := prop, a3 := 0 }
  else ffa_to_smccc_error ret

def ffa_to_smccc_res (ret : Int) : SmccRes :=
  ffa_to_smccc_res_prop ret 0

/-- `is_ffa_call`: fast call, standard owner, function number in the FF-A window. -/
def is_ffa_call (func_id : Nat) : Bool :=
  decide (func_id / 2 ^ 31 % 2 = 1) &&
  decide (func_id / 2 ^ 24 % 2 ^ 6 = 4) &&
  decide (FFA_MIN_FUNC_NUM ≤ func_id % 2 ^ 16) &&
  decide (func_id % 2 ^ 16 ≤ FFA_MAX_FUNC_NUM)

/-! ## Per-page ownership record and the ownership-transition engine

The proxy calls `__pkvm_host_share_ffa` / `__pkvm_host_unshare_ffa`
(`hyp/nvhe/mem_protect.c`, outside the provided sources).  Per the spec these
mark a run of pages shared-with-downstream (resp. no longer shared) and are
individually reversible, failing without effect when any page of the run is
not in the required state. -/

inductive PageState
  | owned
  | sharedFfa
  | noAccess
deriving DecidableEq, Repr

/-- The per-page Ownership Record: page-frame number to page state. -/
abbrev OwnState := Nat → PageState

/-- Overwrite the run of `n` pages starting at `pfn` with state `v`. -/
def updRange (s : OwnState) (pfn n : Nat) (v : PageState) : OwnState :=
  fun p => if pfn ≤ p ∧ p < pfn + n then v else s p

/-- A run-of-pages transition: succeed, moving every page of the run from
state `src` to state `dst`, exactly when all pages of the run are in state
`src`; otherwise fail with no effect. -/
def ffaTransRange (src dst : PageState) (s : OwnState) (pfn n : Nat) : Option OwnState :=
  if ∀ i, i < n → s (pfn + i) = src then some (updRange s pfn n dst) else none

/-- Modelled from the spec: `__pkvm_host_share_ffa` (in
`hyp/nvhe/mem_protect.c`, not among the provided sources) marks `npages`
pages starting at `pfn` shared-with-downstream, failing without any mutation
unless every page is exclusively host-owned. -/
def pkvm_host_share_ffa (s : OwnState) (pfn npages : Nat) : Option OwnState :=
  ffaTransRange .owned .sharedFfa s pfn npages

/-- Modelled from the spec: `__pkvm_host_unshare_ffa` (in
`hyp/nvhe/mem_protect.c`, not among the provided sources) marks `npages`
pages starting at `pfn` no-longer-shared, failing without any mutation
unless every page is currently shared-with-downstream. -/
def pkvm_host_unshare_ffa (s : OwnState) (pfn npages : Nat) : Option OwnState :=
  ffaTransRange .sharedFfa .owned s pfn npages

/-- `struct ffa_mem_region_addr_range`: one constituent range. -/
structure AddrRange where
  address : Nat
  pg_cnt : Nat
deriving DecidableEq, Repr

/-- `hyp_phys_to_pfn(range->address)`. -/
def rangePfn (r : AddrRange) : Nat := r.address / PAGE_SIZE

/-- `(range->pg_cnt * FFA_PAGE_SIZE) / PAGE_SIZE`; the multiplication is a
C `u32` multiplication, hence the reduction mod `2 ^ 32`. -/
def rangeNpages (r : AddrRange) : Nat :=
  (r.pg_cnt * FFA_PAGE_SIZE) % 2 ^ 32 / PAGE_SIZE

/-- Walk a range list in order applying the `src → dst` page transition,
stopping at the first failure; returns how many ranges were transitioned
together with the resulting Ownership Record. -/
def ffaTransGo (src dst : PageState) (s : OwnState) : List AddrRange → Nat × OwnState
  | [] => (0, s)
  | r :: rest =>
    match ffaTransRange src dst s (rangePfn r) (rangeNpages r) with
    | none => (0, s)
    | some s' =>
      ((ffaTransGo src dst s' rest).1 + 1, (ffaTransGo src dst s' rest).2)

/-- `__ffa_host_share_ranges`: share each range in order, stopping at the
first failure; returns the number of ranges shared (and the record). -/
def __ffa_host_share_ranges (s : OwnState) (ranges : List AddrRange) : Nat × OwnState :=
  ffaTransGo .owned .sharedFfa s ranges

/-- `__ffa_host_unshare_ranges`: the structural mirror. -/
def __ffa_host_unshare_ranges (s : OwnState) (ranges : List AddrRange) : Nat × OwnState :=
  ffaTransGo .sharedFfa .owned s ranges

/-- `ffa_host_share_ranges`: share all ranges; if only a proper prefix could
be shared, unshare that prefix again (forward order) and report `DENIED`. -/
def ffa_host_share_ranges (s : OwnState) (ranges : List AddrRange) : Int × OwnState :=
  let t := __ffa_host_share_ranges s ranges
  if t.1 ≠ ranges.length then
    (FFA_RET_DENIED, (__ffa_host_unshare_ranges t.2 (ranges.take t.1)).2)
  else (FFA_RET_SUCCESS, t.2)

/-- `ffa_host_unshare_ranges`: unshare all ranges; if only a proper prefix
could be unshared, re-share that prefix again and report `DENIED`. -/
def ffa_host_unshare_ranges (s : OwnState) (ranges : List AddrRange) : Int × OwnState :=
  let t := __ffa_host_unshare_ranges s ranges
  if t.1 ≠ ranges.length then
    (FFA_RET_DENIED, (__ffa_host_share_ranges t.2 (ranges.take t.1)).2)
  else (FFA_RET_SUCCESS, t.2)

/-! ## Hypervisor page-grant record (for the RXTX buffer pair) -/

/-- Modelled from the spec: `__pkvm_host_share_hyp` (in
`hyp/nvhe/mem_protect.c`, not among the provided sources) grants the
privileged domain access to one page, recording the grant; it fails without
effect when the page is already granted or its ownership forbids the grant
(the `ungrantable` oracle). -/
def pkvm_host_share_hyp (granted ungrantable : Nat → Bool) (pfn : Nat) : Option (Nat → Bool) :=
  if ungrantable pfn || granted pfn then none
  else some fun p => if p = pfn then true else granted p

/-- Modelled from the spec: `__pkvm_host_unshare_hyp` (in
`hyp/nvhe/mem_protect.c`, not among the provided sources) revokes a recorded
grant; it fails without effect when no grant is recorded. -/
def pkvm_host_unshare_hyp (granted : Nat → Bool) (pfn : Nat) : Option (Nat → Bool) :=
  if granted pfn then some fun p => if p = pfn then false else granted p
  else none

/-! ## Memory-region descriptor staged in the TX buffer

The proxy copies the host fragment into its private buffer and reads
`sender_id`, `ep_count`, `ep_mem_access[0].composite_off` and, at the
validated composite offset, `addr_range_cnt` with that many constituent
ranges.  The staged bytes are modelled by those decoded fields; the range
count is the length of `constituents`. -/

structure MemRegionBuf where
  sender_id : Nat
  ep_count : Nat
  composite_off : Nat
  constituents : List AddrRange
deriving DecidableEq, Repr

/-! ## `do_ffa_mem_xfer` (share and lend) -/

/-- Outcome of `do_ffa_mem_xfer`: result registers, Ownership Record,
whether the ownership engine was invoked, and the call forwarded to the
downstream authority (function id, `len`, `fraglen`), if any. -/
structure XferOut where
  res : SmccRes
  own : OwnState
  engineCalled : Bool
  fwdCall : Option (Nat × Nat × Nat)

/-- `do_ffa_mem_xfer`.  `hostTx` is the staged content of the host TX
buffer, `none` when no RXTX mapping exists; `xferRes` is the downstream's
response to the forwarded transfer. -/
def do_ffa_mem_xfer (func_id len fraglen addr_mbz npages_mbz : Nat)
    (hostTx : Option MemRegionBuf) (own : OwnState) (xferRes : SmccRes) : XferOut :=
  if addr_mbz ≠ 0 ∨ npages_mbz ≠ 0 ∨ fraglen > len ∨
      fraglen > KVM_FFA_MBOX_NR_PAGES * PAGE_SIZE then
    ⟨ffa_to_smccc_res FFA_RET_INVALID_PARAMETERS, own, false, none⟩
  else if fraglen < len then
    ⟨ffa_to_smccc_res FFA_RET_ABORTED, own, false, none⟩
  else if fraglen < sizeof_ffa_mem_region + sizeof_ffa_mem_region_attributes then
    ⟨ffa_to_smccc_res FFA_RET_INVALID_PARAMETERS, own, false, none⟩
  else
    match hostTx with
    | none => ⟨ffa_to_smccc_res FFA_RET_INVALID_PARAMETERS, own, false, none⟩
    | some buf =>
      if buf.composite_off = 0 ∨ buf.ep_count ≠ 1 ∨ buf.sender_id ≠ HOST_FFA_ID then
        ⟨ffa_to_smccc_res FFA_RET_INVALID_PARAMETERS, own, false, none⟩
      else if fraglen < buf.composite_off + sizeof_ffa_composite_mem_region then
        ⟨ffa_to_smccc_res FFA_RET_INVALID_PARAMETERS, own, false, none⟩
      else if fraglen < buf.composite_off + sizeof_ffa_composite_mem_region +
          buf.constituents.length * sizeof_ffa_mem_region_addr_range then
        ⟨ffa_to_smccc_res FFA_RET_INVALID_PARAMETERS, own, false, none⟩
      else
        let t := ffa_host_share_ranges own buf.constituents
        if t.1 ≠ FFA_RET_SUCCESS then
          ⟨ffa_to_smccc_res t.1, t.2, true, none⟩
        else if xferRes.a0 ≠ FFA_SUCCESS then
          ⟨xferRes, (ffa_host_unshare_ranges t.2 buf.constituents).2, true,
            some (func_id, len, fraglen)⟩
        else
          ⟨xferRes, t.2, true, some (func_id, len, fraglen)⟩

/-! ## `do_ffa_mem_reclaim` -/

/-- Outcome of `do_ffa_mem_reclaim`: result registers, Ownership Record,
and the reclaim call issued downstream (`handle_lo`, `handle_hi`, `flags`),
if any. -/
structure ReclaimOut where
  res : SmccRes
  own : OwnState
  reclaimCall : Option (Nat × Nat × Nat)

/-- `do_ffa_mem_reclaim`.  `retrieveRes` is the downstream's response to the
retrieve request the proxy sends first; `rxBuf` is the descriptor the
downstream leaves in the RX buffer; `reclaimRes` its response to the
follow-up reclaim. -/
def do_ffa_mem_reclaim (handle_lo handle_hi flags : Nat)
    (retrieveRes : SmccRes) (rxBuf : MemRegionBuf) (reclaimRes : SmccRes)
    (own : OwnState) : ReclaimOut :=
  if retrieveRes.a0 ≠ FFA_MEM_RETRIEVE_RESP then
    ⟨retrieveRes, own, none⟩
  else if retrieveRes.a1 ≠ retrieveRes.a2 then
    ⟨ffa_to_smccc_res FFA_RET_ABORTED, own, none⟩
  else if rxBuf.composite_off > KVM_FFA_MBOX_NR_PAGES * PAGE_SIZE then
    ⟨ffa_to_smccc_res FFA_RET_ABORTED, own, none⟩
  else if reclaimRes.a0 ≠ FFA_SUCCESS then
    ⟨reclaimRes, own, some (handle_lo, handle_hi, flags)⟩
  else
    ⟨reclaimRes, (ffa_host_unshare_ranges own rxBuf.constituents).2,
      some (handle_lo, handle_hi, flags)⟩

/-! ## `do_ffa_rxtx_map` and `do_ffa_rxtx_unmap` -/

/-- Outcome of the RXTX buffer-pair calls: result registers, recorded host
buffer mapping (`host_kvm.ffa.tx`/`rx`), grant record, and whether a
downstream unmap was requested while unwinding. -/
structure MapOut where
  res : SmccRes
  tx : Option Nat
  rx : Option Nat
  granted : Nat → Bool
  unmapRequested : Bool

/-- `do_ffa_rxtx_map`.  `mapRes` is the downstream's response to
`spmd_map_ffa_buffers`; `ungrantable` parametrises which pages the grant
engine refuses (see `pkvm_host_share_hyp`). -/
def do_ffa_rxtx_map (txA rxA npages : Nat) (st_tx st_rx : Option Nat)
    (granted ungrantable : Nat → Bool) (mapRes : SmccRes) : MapOut :=
  if npages ≠ KVM_FFA_MBOX_NR_PAGES * PAGE_SIZE / FFA_PAGE_SIZE then
    ⟨ffa_to_smccc_res FFA_RET_INVALID_PARAMETERS, st_tx, st_rx, granted, false⟩
  else if ¬(txA % PAGE_SIZE = 0 ∧ rxA % PAGE_SIZE = 0) then
    ⟨ffa_to_smccc_res FFA_RET_INVALID_PARAMETERS, st_tx, st_rx, granted, false⟩
  else if st_tx.isSome then
    ⟨ffa_to_smccc_res FFA_RET_DENIED, st_tx, st_rx, granted, false⟩
  else
    let mapRet : Int :=
      if mapRes.a0 = FFA_SUCCESS then FFA_RET_SUCCESS else intOfU32 mapRes.a2
    if mapRet ≠ 0 then
      ⟨ffa_to_smccc_res mapRet, st_tx, st_rx, granted, false⟩
    else
      match pkvm_host_share_hyp granted ungrantable (txA / PAGE_SIZE) with
      | none =>
        ⟨ffa_to_smccc_res FFA_RET_INVALID_PARAMETERS, st_tx, st_rx, granted, true⟩
      | some g1 =>
        match pkvm_host_share_hyp g1 ungrantable (rxA / PAGE_SIZE) with
        | none =>
          ⟨ffa_to_smccc_res FFA_RET_INVALID_PARAMETERS, st_tx, st_rx,
            (pkvm_host_unshare_hyp g1 (txA / PAGE_SIZE)).getD g1, true⟩
        | some g2 =>
          ⟨ffa_to_smccc_res FFA_RET_SUCCESS, some txA, some rxA, g2, false⟩

/-- `do_ffa_rxtx_unmap` (its `WARN_ON`-wrapped unshares ignore failure). -/
def do_ffa_rxtx_unmap (id : Nat) (st_tx st_rx : Option Nat)
    (granted : Nat → Bool) : MapOut :=
  if id ≠ HOST_FFA_ID then
    ⟨ffa_to_smccc_res FFA_RET_INVALID_PARAMETERS, st_tx, st_rx, granted, false⟩
  else
    match st_tx with
    | none => ⟨ffa_to_smccc_res FFA_RET_INVALID_PARAMETERS, st_tx, st_rx, granted, false⟩
    | some txv =>
      let g1 := (pkvm_host_unshare_hyp granted (txv / PAGE_SIZE)).getD granted
      let g2 := (pkvm_host_unshare_hyp g1 (st_rx.getD 0 / PAGE_SIZE)).getD g1
      ⟨ffa_to_smccc_res FFA_RET_SUCCESS, none, none, g2, true⟩

/-! ## Unsupported calls, feature query, and the dispatcher -/

/-- The function ids `ffa_call_unsupported` enumerates (its `switch`). -/
def unsupCalls : List Nat :=
  [FFA_FN64_MEM_RETRIEVE_REQ, FFA_MEM_RETRIEVE_RESP, FFA_MEM_RELINQUISH,
   FFA_MEM_OP_PAUSE, FFA_MEM_OP_RESUME, FFA_MEM_FRAG_RX, FFA_FN64_MEM_DONATE,
   FFA_MSG_SEND, FFA_MSG_POLL, FFA_MSG_WAIT, FFA_MSG_SEND_DIRECT_REQ,
   FFA_MSG_SEND_DIRECT_RESP, FFA_RXTX_MAP, FFA_MEM_DONATE, FFA_MEM_RETRIEVE_REQ]

def ffa_call_unsupported (func_id : Nat) : Bool :=
  unsupCalls.contains func_id

/-- `do_ffa_features`: `some res` when the proxy answers the query itself,
`none` when it declines and the call passes through. -/
def do_ffa_features (id : Nat) : Option SmccRes :=
  if ffa_call_unsupported id then
    some (ffa_to_smccc_res_prop FFA_RET_NOT_SUPPORTED 0)
  else if id = FFA_MEM_SHARE ∨ id = FFA_FN64_MEM_SHARE ∨
      id = FFA_MEM_LEND ∨ id = FFA_FN64_MEM_LEND then
    some (ffa_to_smccc_res_prop FFA_RET_SUCCESS 0)
  else none

/-- Downstream oracle for one mediated call: the responses the SPMD would
give to each call the proxy may issue, and the RX-buffer descriptor it
would leave behind on a retrieve request. -/
structure Spmd where
  mapRes : SmccRes
  xferRes : SmccRes
  retrieveRes : SmccRes
  reclaimRes : SmccRes
  rxBuf : MemRegionBuf

/-- Outcome of the dispatcher: whether the call was handled (`false` means
pass through to the default path), the result registers written back when
handled, and the post-call state. -/
structure HandlerOut where
  handled : Bool
  res : SmccRes
  own : OwnState
  tx : Option Nat
  rx : Option Nat
  granted : Nat → Bool

/-- `kvm_host_ffa_handler`: classify `r0` and run the mediated operation.
`txContent` is the staged content of the host TX buffer (meaningful only
while a mapping exists). -/
def kvm_host_ffa_handler (r0 r1 r2 r3 r4 : Nat) (tx rx : Option Nat)
    (txContent : MemRegionBuf) (own : OwnState)
    (granted ungrantable : Nat → Bool) (spmd : Spmd) : HandlerOut :=
  let func_id := r0
  if ¬(is_ffa_call func_id = true) then
    ⟨false, ⟨0, 0, 0, 0⟩, own, tx, rx, granted⟩
  else if func_id = FFA_FEATURES then
    match do_ffa_features (r1 % 2 ^ 32) with
    | some res => ⟨true, res, own, tx, rx, granted⟩
    | none => ⟨false, ⟨0, 0, 0, 0⟩, own, tx, rx, granted⟩
  else if func_id = FFA_FN64_RXTX_MAP then
    let o := do_ffa_rxtx_map r1 r2 (r3 % 2 ^ 32) tx rx granted ungrantable spmd.mapRes
    ⟨true, o.res, own, o.tx, o.rx, o.granted⟩
  else if func_id = FFA_RXTX_UNMAP then
    let o := do_ffa_rxtx_unmap (r1 % 2 ^ 32) tx rx granted
    ⟨true, o.res, own, o.tx, o.rx, o.granted⟩
  else if func_id = FFA_MEM_SHARE ∨ func_id = FFA_FN64_MEM_SHARE then
    let hostTx := if tx.isSome then some txContent else none
    let o := do_ffa_mem_xfer FFA_FN64_MEM_SHARE (r1 % 2 ^ 32) (r2 % 2 ^ 32)
      r3 (r4 % 2 ^ 32) hostTx own spmd.xferRes
    ⟨true, o.res, o.own, tx, rx, granted⟩
  else if func_id = FFA_MEM_RECLAIM then
    let o := do_ffa_mem_reclaim (r1 % 2 ^ 32) (r2 % 2 ^ 32) (r3 % 2 ^ 32)
      spmd.retrieveRes spmd.rxBuf spmd.reclaimRes own
    ⟨true, o.res, o.own, tx, rx, granted⟩
  else if func_id = FFA_MEM_LEND ∨ func_id = FFA_FN64_MEM_LEND then
    let hostTx := if tx.isSome then some txContent else none
    let o := do_ffa_mem_xfer FFA_FN64_MEM_LEND (r1 % 2 ^ 32) (r2 % 2 ^ 32)
      r3 (r4 % 2 ^ 32) hostTx own spmd.xferRes
    ⟨true, o.res, o.own, tx, rx, granted⟩
  else if ffa_call_unsupported func_id then
    ⟨true, ffa_to_smccc_error FFA_RET_NOT_SUPPORTED, own, tx, rx, granted⟩
  else
    ⟨false, ⟨0, 0, 0, 0⟩, own, tx, rx, granted⟩

/-! ## Rollback theory for the ownership-transition engine -/

theorem transRange_eq_some {src dst : PageState} {s s' : OwnState} {pfn n : Nat}
    (h : ffaTransRange src dst s pfn n = some s') :
    (∀ i, i < n → s (pfn + i) = src) ∧ s' = updRange s pfn n dst := by
  unfold ffaTransRange at h
  split at h
  · exact ⟨by assumption, (Option.some.inj h).symm⟩
  · exact absurd h (by simp)

theorem transRange_of_all {src dst : PageState} {s : OwnState} {pfn n : Nat}
    (h : ∀ i, i < n → s (pfn + i) = src) :
    ffaTransRange src dst s pfn n = some (updRange s pfn n dst) := by
  unfold ffaTransRange
  exact if_pos h

theorem updRange_mem {s : OwnState} {pfn n : Nat} {v : PageState} {p : Nat}
    (h : pfn ≤ p ∧ p < pfn + n) : updRange s pfn n v p = v := by
  unfold updRange
  exact if_pos h

theorem updRange_not_mem {s : OwnState} {pfn n : Nat} {v : PageState} {p : Nat}
    (h : ¬(pfn ≤ p ∧ p < pfn + n)) : updRange s pfn n v p = s p := by
  unfold updRange
  exact if_neg h

/-- Pages not in the source state are untouched by a transition walk. -/
theorem transGo_pres {src dst : PageState} (L : List AddrRange) {s : OwnState}
    {p : Nat} (h : s p ≠ src) : (ffaTransGo src dst s L).2 p = s p := by
  induction L generalizing s with
  | nil => rfl
  | cons r rest ih =>
    unfold ffaTransGo
    cases htr : ffaTransRange src dst s (rangePfn r) (rangeNpages r) with
    | none => rfl
    | some s' =>
      obtain ⟨hall, rfl⟩ := transRange_eq_some htr
      simp only
      by_cases hin : rangePfn r ≤ p ∧ p < rangePfn r + rangeNpages r
      · refine absurd ?_ h
        have := hall (p - rangePfn r) (by omega)
        rwa [Nat.add_sub_cancel' hin.1] at this
      · rw [ih (by rw [updRange_not_mem hin]; exact h), updRange_not_mem hin]

/-- Every page of every range of the successfully transitioned prefix was in
the source state before the walk started. -/
theorem transGo_taken_src {src dst : PageState} (hsd : src ≠ dst)
    (L : List AddrRange) {s : OwnState} {r' : AddrRange}
    (h : r' ∈ L.take (ffaTransGo src dst s L).1) {p : Nat}
    (hp : rangePfn r' ≤ p ∧ p < rangePfn r' + rangeNpages r') : s p = src := by
  induction L generalizing s with
  | nil => simp [ffaTransGo] at h
  | cons r rest ih =>
    unfold ffaTransGo at h
    cases htr : ffaTransRange src dst s (rangePfn r) (rangeNpages r) with
    | none => rw [htr] at h; simp at h
    | some s' =>
      rw [htr] at h
      simp only [List.take_succ_cons, List.mem_cons] at h
      obtain ⟨hall, rfl⟩ := transRange_eq_some htr
      rcases h with rfl | h
      · have := hall (p - rangePfn r') (by omega)
        rwa [Nat.add_sub_cancel' hp.1] at this
      · have hs' := ih h
        by_cases hin : rangePfn r ≤ p ∧ p < rangePfn r + rangeNpages r
        · rw [updRange_mem hin] at hs'
          exact absurd hs'.symm hsd
        · rwa [updRange_not_mem hin] at hs'

/-- A single-range transition commutes with overwriting a disjoint run. -/
theorem transRange_upd_comm {a b v : PageState} {s : OwnState}
    {pfn n pfn' n' : Nat}
    (hdisj : ∀ p, pfn' ≤ p ∧ p < pfn' + n' → ¬(pfn ≤ p ∧ p < pfn + n)) :
    ffaTransRange a b (updRange s pfn n v) pfn' n' =
      Option.map (fun t => updRange t pfn n v) (ffaTransRange a b s pfn' n') := by
  have hguard : (∀ i, i < n' → updRange s pfn n v (pfn' + i) = a) ↔
      (∀ i, i < n' → s (pfn' + i) = a) := by
    constructor <;> intro hg i hi
    · have := hg i hi
      rwa [updRange_not_mem (hdisj _ ⟨Nat.le_add_right _ _, by omega⟩)] at this
    · rw [updRange_not_mem (hdisj _ ⟨Nat.le_add_right _ _, by omega⟩)]
      exact hg i hi
  unfold ffaTransRange
  by_cases hg : ∀ i, i < n' → s (pfn' + i) = a
  · rw [if_pos (hguard.mpr hg), if_pos hg]
    simp only [Option.map_some']
    congr 1
    funext p
    by_cases hin' : pfn' ≤ p ∧ p < pfn' + n'
    · rw [updRange_mem hin', updRange_not_mem (hdisj _ hin'), updRange_mem hin']
    · by_cases hin : pfn ≤ p ∧ p < pfn + n
      · rw [updRange_not_mem hin', updRange_mem hin, updRange_mem hin]
      · rw [updRange_not_mem hin', updRange_not_mem hin,
          updRange_not_mem hin, updRange_not_mem hin']
  · rw [if_neg (fun hc => hg (hguard.mp hc)), if_neg hg]
    rfl

/-- A transition walk commutes with overwriting a run disjoint from every
range on the list. -/
theorem transGo_upd_comm {a b v : PageState} (L : List AddrRange)
    {s : OwnState} {pfn n : Nat}
    (hdisj : ∀ r' ∈ L, ∀ p, rangePfn r' ≤ p ∧ p < rangePfn r' + rangeNpages r' →
      ¬(pfn ≤ p ∧ p < pfn + n)) :
    ffaTransGo a b (updRange s pfn n v) L =
      ((ffaTransGo a b s L).1, updRange (ffaTransGo a b s L).2 pfn n v) := by
  induction L generalizing s with
  | nil => rfl
  | cons r rest ih =>
    unfold ffaTransGo
    rw [transRange_upd_comm (hdisj r (List.mem_cons_self r rest))]
    cases htr : ffaTransRange a b s (rangePfn r) (rangeNpages r) with
    | none => rfl
    | some s' =>
      simp only [Option.map_some']
      rw [ih (fun r' hr' => hdisj r' (List.mem_cons_of_mem r hr'))]

/-- Exact rollback: reversing the successfully transitioned prefix of a walk,
in the same forward order, fully succeeds and restores the initial record. -/
theorem transGo_rollback {src dst : PageState} (hsd : src ≠ dst)
    (L : List AddrRange) (s : OwnState) :
    ffaTransGo dst src (ffaTransGo src dst s L).2
        (L.take (ffaTransGo src dst s L).1) =
      ((ffaTransGo src dst s L).1, s) := by
  induction L generalizing s with
  | nil => rfl
  | cons r rest ih =>
    cases htr : ffaTransRange src dst s (rangePfn r) (rangeNpages r) with
    | none =>
      have hstep : ffaTransGo src dst s (r :: rest) = (0, s) := by
        simp only [ffaTransGo]
        rw [htr]
      rw [hstep]
      rfl
    | some s' =>
      obtain ⟨hall, rfl⟩ := transRange_eq_some htr
      have hstep : ffaTransGo src dst s (r :: rest) =
          ((ffaTransGo src dst (updRange s (rangePfn r) (rangeNpages r) dst) rest).1 + 1,
           (ffaTransGo src dst (updRange s (rangePfn r) (rangeNpages r) dst) rest).2) := by
        simp only [ffaTransGo]
        rw [htr]
      rw [hstep]
      show ffaTransGo dst src
          (ffaTransGo src dst (updRange s (rangePfn r) (rangeNpages r) dst) rest).2
          (List.take ((ffaTransGo src dst (updRange s (rangePfn r) (rangeNpages r) dst) rest).1 + 1)
            (r :: rest)) =
        ((ffaTransGo src dst (updRange s (rangePfn r) (rangeNpages r) dst) rest).1 + 1, s)
      rw [List.take_succ_cons]
      have hback : ∀ j, j < rangeNpages r →
          (ffaTransGo src dst (updRange s (rangePfn r) (rangeNpages r) dst) rest).2
            (rangePfn r + j) = dst := by
        intro j hj
        rw [transGo_pres rest
          (by rw [updRange_mem ⟨Nat.le_add_right _ _, by omega⟩]
              exact fun hc => hsd hc.symm)]
        exact updRange_mem ⟨Nat.le_add_right _ _, by omega⟩
      have hstep2 : ffaTransGo dst src
          (ffaTransGo src dst (updRange s (rangePfn r) (rangeNpages r) dst) rest).2
          (r :: rest.take (ffaTransGo src dst (updRange s (rangePfn r) (rangeNpages r) dst) rest).1) =
          ((ffaTransGo dst src
              (updRange (ffaTransGo src dst (updRange s (rangePfn r) (rangeNpages r) dst) rest).2
                (rangePfn r) (rangeNpages r) src)
              (rest.take (ffaTransGo src dst (updRange s (rangePfn r) (rangeNpages r) dst) rest).1)).1 + 1,
           (ffaTransGo dst src
              (updRange (ffaTransGo src dst (updRange s (rangePfn r) (rangeNpages r) dst) rest).2
                (rangePfn r) (rangeNpages r) src)
              (rest.take (ffaTransGo src dst (updRange s (rangePfn r) (rangeNpages r) dst) rest).1)).2) := by
        simp only [ffaTransGo]
        rw [transRange_of_all hback]
      rw [hstep2]
      have hdisj : ∀ r' ∈ rest.take
            (ffaTransGo src dst (updRange s (rangePfn r) (rangeNpages r) dst) rest).1, ∀ p,
          rangePfn r' ≤ p ∧ p < rangePfn r' + rangeNpages r' →
          ¬(rangePfn r ≤ p ∧ p < rangePfn r + rangeNpages r) := by
        intro r' hr' p hp hc
        have hsrc := transGo_taken_src hsd rest
          (s := updRange s (rangePfn r) (rangeNpages r) dst) hr' hp
        rw [updRange_mem hc] at hsrc
        exact hsd hsrc.symm
      rw [transGo_upd_comm _ hdisj, ih]
      have hupd : updRange (updRange s (rangePfn r) (rangeNpages r) dst)
          (rangePfn r) (rangeNpages r) src = s := by
        funext p
        by_cases hin : rangePfn r ≤ p ∧ p < rangePfn r + rangeNpages r
        · rw [updRange_mem hin]
          have := hall (p - rangePfn r) (by omega)
          rw [Nat.add_sub_cancel' hin.1] at this
          exact this.symm
        · rw [updRange_not_mem hin, updRange_not_mem hin]
      rw [hupd]

/-! ## Corollaries for the range wrappers -/

theorem ffa_host_share_ranges_denied {s : OwnState} {rs : List AddrRange}
    (h : (__ffa_host_share_ranges s rs).1 < rs.length) :
    ffa_host_share_ranges s rs = (FFA_RET_DENIED, s) := by
  have hr : __ffa_host_unshare_ranges (__ffa_host_share_ranges s rs).2
      (rs.take (__ffa_host_share_ranges s rs).1) =
      ((__ffa_host_share_ranges s rs).1, s) :=
    transGo_rollback (by decide) rs s
  simp only [ffa_host_share_ranges]
  rw [if_pos (by omega), hr]

theorem ffa_host_unshare_ranges_denied {s : OwnState} {rs : List AddrRange}
    (h : (__ffa_host_unshare_ranges s rs).1 < rs.length) :
    ffa_host_unshare_ranges s rs = (FFA_RET_DENIED, s) := by
  have hr : __ffa_host_share_ranges (__ffa_host_unshare_ranges s rs).2
      (rs.take (__ffa_host_unshare_ranges s rs).1) =
      ((__ffa_host_unshare_ranges s rs).1, s) :=
    transGo_rollback (by decide) rs s
  simp only [ffa_host_unshare_ranges]
  rw [if_pos (by omega), hr]

theorem ffa_host_share_ranges_ok {s : OwnState} {rs : List AddrRange}
    (h : (__ffa_host_share_ranges s rs).1 = rs.length) :
    ffa_host_share_ranges s rs = (FFA_RET_SUCCESS, (__ffa_host_share_ranges s rs).2) := by
  simp only [ffa_host_share_ranges]
  rw [if_neg (by omega)]

/-- After a fully successful share walk, unsharing the same range list fully
succeeds and restores the initial Ownership Record. -/
theorem ffa_host_unshare_after_share {s : OwnState} {rs : List AddrRange}
    (h : (__ffa_host_share_ranges s rs).1 = rs.length) :
    ffa_host_unshare_ranges (__ffa_host_share_ranges s rs).2 rs = (FFA_RET_SUCCESS, s) := by
  have hr : __ffa_host_unshare_ranges (__ffa_host_share_ranges s rs).2
      (rs.take (__ffa_host_share_ranges s rs).1) =
      ((__ffa_host_share_ranges s rs).1, s) :=
    transGo_rollback (by decide) rs s
  rw [h, List.take_length] at hr
  simp only [ffa_host_unshare_ranges]
  rw [hr]
  rw [if_neg (by simp)]

/-! ## Sample values used by the witnesses -/

def ownAllOwned : OwnState := fun _ => PageState.owned

/-- A record in which page-frame 17 is already shared with the downstream. -/
def ownShared17 : OwnState := fun p => if p = 17 then PageState.sharedFfa else PageState.owned

/-- A record in which only page-frame 16 is shared with the downstream. -/
def ownShared16 : OwnState := fun p => if p = 16 then PageState.sharedFfa else PageState.owned

def sampleRanges : List AddrRange := [⟨0x10000, 1⟩, ⟨0x11000, 1⟩]

/-- C1: whenever the forward share walk over a range list stops early at
index k (k < number of ranges), `ffa_host_share_ranges` unshares exactly the
k already-shared ranges, walking them in the same forward order and fully
succeeding, returns the DENIED error, and the per-page Ownership Record
after the call equals the record before the call; symmetrically,
`ffa_host_unshare_ranges` re-shares the already-unshared prefix on partial
failure and returns DENIED with the record restored. -/
theorem claim_C1 (s : OwnState) (rs : List AddrRange) :
    ((__ffa_host_share_ranges s rs).1 < rs.length →
      __ffa_host_unshare_ranges (__ffa_host_share_ranges s rs).2
          (rs.take (__ffa_host_share_ranges s rs).1) =
        ((__ffa_host_share_ranges s rs).1, s) ∧
      ffa_host_share_ranges s rs = (FFA_RET_DENIED, s)) ∧
    ((__ffa_host_unshare_ranges s rs).1 < rs.length →
      __ffa_host_share_ranges (__ffa_host_unshare_ranges s rs).2
          (rs.take (__ffa_host_unshare_ranges s rs).1) =
        ((__ffa_host_unshare_ranges s rs).1, s) ∧
      ffa_host_unshare_ranges s rs = (FFA_RET_DENIED, s)) := by
  constructor
  · intro h
    exact ⟨transGo_rollback (by decide) rs s, ffa_host_share_ranges_denied h⟩
  · intro h
    exact ⟨transGo_rollback (by decide) rs s, ffa_host_unshare_ranges_denied h⟩

/-- Witness for C1: a two-range share that fails on the second range (page 17
already shared) rolls back to the initial record with DENIED, and a
two-range unshare that fails on the second range (page 17 not shared)
rolls forward again to the initial record with DENIED. -/
theorem claim_C1_witness :
    ffa_host_share_ranges ownShared17 sampleRanges = (FFA_RET_DENIED, ownShared17) ∧
    ffa_host_unshare_ranges ownShared16 sampleRanges = (FFA_RET_DENIED, ownShared16) :=
  ⟨((claim_C1 ownShared17 sampleRanges).1 (by decide)).2,
   ((claim_C1 ownShared16 sampleRanges).2 (by decide)).2⟩

/-- Evaluation of `do_ffa_mem_xfer` once every validation check passes. -/
theorem do_ffa_mem_xfer_valid (func_id len fraglen : Nat) (buf : MemRegionBuf)
    (own : OwnState) (xferRes : SmccRes)
    (hfrag : fraglen = len)
    (hcap : fraglen ≤ KVM_FFA_MBOX_NR_PAGES * PAGE_SIZE)
    (hhdr : sizeof_ffa_mem_region + sizeof_ffa_mem_region_attributes ≤ fraglen)
    (hoff : buf.composite_off ≠ 0)
    (hep : buf.ep_count = 1)
    (hsend : buf.sender_id = HOST_FFA_ID)
    (hfit : buf.composite_off + sizeof_ffa_composite_mem_region ≤ fraglen)
    (hfit2 : buf.composite_off + sizeof_ffa_composite_mem_region +
        buf.constituents.length * sizeof_ffa_mem_region_addr_range ≤ fraglen) :
    do_ffa_mem_xfer func_id len fraglen 0 0 (some buf) own xferRes =
      (if (ffa_host_share_ranges own buf.constituents).1 ≠ FFA_RET_SUCCESS then
        ⟨ffa_to_smccc_res (ffa_host_share_ranges own buf.constituents).1,
          (ffa_host_share_ranges own buf.constituents).2, true, none⟩
      else if xferRes.a0 ≠ FFA_SUCCESS then
        ⟨xferRes, (ffa_host_unshare_ranges (ffa_host_share_ranges own buf.constituents).2
          buf.constituents).2, true, some (func_id, len, fraglen)⟩
      else ⟨xferRes, (ffa_host_share_ranges own buf.constituents).2, true,
        some (func_id, len, fraglen)⟩) := by
  simp only [do_ffa_mem_xfer]
  rw [if_neg (by omega), if_neg (by omega), if_neg (by omega), if_neg (by omega),
    if_neg (by omega), if_neg (by omega)]

/-- C2: for a share or lend transfer whose local ownership transition fully
succeeds and which is forwarded downstream, a non-success downstream result
makes the mediator unshare the same constituent ranges (restoring the
Ownership Record exactly) and return the downstream's result registers
unchanged, while a success downstream result keeps the shared marking and is
returned verbatim. -/
theorem claim_C2 (func_id len fraglen : Nat) (buf : MemRegionBuf)
    (own : OwnState) (xferRes : SmccRes)
    (hfrag : fraglen = len)
    (hcap : fraglen ≤ KVM_FFA_MBOX_NR_PAGES * PAGE_SIZE)
    (hhdr : sizeof_ffa_mem_region + sizeof_ffa_mem_region_attributes ≤ fraglen)
    (hoff : buf.composite_off ≠ 0)
    (hep : buf.ep_count = 1)
    (hsend : buf.sender_id = HOST_FFA_ID)
    (hfit : buf.composite_off + sizeof_ffa_composite_mem_region ≤ fraglen)
    (hfit2 : buf.composite_off + sizeof_ffa_composite_mem_region +
        buf.constituents.length * sizeof_ffa_mem_region_addr_range ≤ fraglen)
    (hsh : (__ffa_host_share_ranges own buf.constituents).1 = buf.constituents.length) :
    (xferRes.a0 ≠ FFA_SUCCESS →
      do_ffa_mem_xfer func_id len fraglen 0 0 (some buf) own xferRes =
        ⟨xferRes, own, true, some (func_id, len, fraglen)⟩) ∧
    (xferRes.a0 = FFA_SUCCESS →
      do_ffa_mem_xfer func_id len fraglen 0 0 (some buf) own xferRes =
        ⟨xferRes, (__ffa_host_share_ranges own buf.constituents).2, true,
          some (func_id, len, fraglen)⟩) := by
  have hv := do_ffa_mem_xfer_valid func_id len fraglen buf own xferRes hfrag hcap hhdr
    hoff hep hsend hfit hfit2
  have hok := ffa_host_share_ranges_ok hsh
  have hun := ffa_host_unshare_after_share hsh
  refine ⟨fun hne => ?_, fun heq => ?_⟩
  · rw [hv, if_neg (by rw [hok]; exact fun hc => hc rfl), if_pos hne, hok]
    show XferOut.mk xferRes
        (ffa_host_unshare_ranges (__ffa_host_share_ranges own buf.constituents).2
          buf.constituents).2 true (some (func_id, len, fraglen)) = _
    rw [hun]
  · rw [hv, if_neg (by rw [hok]; exact fun hc => hc rfl),
      if_neg (fun hc => hc heq), hok]

def sampleBuf : MemRegionBuf := ⟨0, 1, 32, [⟨0x10000, 1⟩]⟩

def sampleErrRes : SmccRes := ⟨FFA_ERROR, 0, u64OfInt FFA_RET_DENIED, 0⟩

/-- Witness for C2: a lend of a single 1-page range whose downstream result
is an error rolls the page back to not-shared and returns that error
verbatim. -/
theorem claim_C2_witness :
    sampleErrRes.a0 ≠ FFA_SUCCESS ∧
    do_ffa_mem_xfer FFA_FN64_MEM_LEND 64 64 0 0 (some sampleBuf) ownAllOwned sampleErrRes =
      ⟨sampleErrRes, ownAllOwned, true, some (FFA_FN64_MEM_LEND, 64, 64)⟩ :=
  ⟨by decide,
   (claim_C2 FFA_FN64_MEM_LEND 64 64 sampleBuf ownAllOwned sampleErrRes
      (by decide) (by decide) (by decide) (by decide) (by decide) (by decide)
      (by decide) (by decide) (by decide)).1 (by decide)⟩

/-- Counterexample for C3: a share with declared fragment length 2 strictly
greater than declared total length 1 returns the INVALID_PARAMETERS error,
not the ABORTED error the claim requires. -/
theorem claim_C3_counterexample :
    (do_ffa_mem_xfer FFA_FN64_MEM_SHARE 1 2 0 0 (some sampleBuf) ownAllOwned
        sampleErrRes).res = ffa_to_smccc_res FFA_RET_INVALID_PARAMETERS ∧
    (do_ffa_mem_xfer FFA_FN64_MEM_SHARE 1 2 0 0 (some sampleBuf) ownAllOwned
        sampleErrRes).res ≠ ffa_to_smccc_res FFA_RET_ABORTED := by
  constructor
  · rfl
  · decide

/-- C3 (amended): for every share or lend transfer request whose declared
fragment length is strictly greater than its declared total length, the call
returns the INVALID_PARAMETERS error (not ABORTED), leaving the Ownership
Record untouched, the engine uninvoked and nothing forwarded downstream. -/
theorem claim_C3_amended (func_id len fraglen addr_mbz npages_mbz : Nat)
    (hostTx : Option MemRegionBuf) (own : OwnState) (xferRes : SmccRes)
    (h : fraglen > len) :
    do_ffa_mem_xfer func_id len fraglen addr_mbz npages_mbz hostTx own xferRes =
      ⟨ffa_to_smccc_res FFA_RET_INVALID_PARAMETERS, own, false, none⟩ := by
  simp only [do_ffa_mem_xfer]
  rw [if_pos (Or.inr (Or.inr (Or.inl h)))]

/-- Witness for C3 (amended): fragment length 2 against total length 1. -/
theorem claim_C3_witness :
    do_ffa_mem_xfer FFA_FN64_MEM_SHARE 1 2 0 0 (some sampleBuf) ownAllOwned sampleErrRes =
      ⟨ffa_to_smccc_res FFA_RET_INVALID_PARAMETERS, ownAllOwned, false, none⟩ :=
  claim_C3_amended FFA_FN64_MEM_SHARE 1 2 0 0 (some sampleBuf) ownAllOwned sampleErrRes
    (by decide)

/-- C4: a share or lend transfer whose declared fragment length is strictly
less than its declared total length, passing the reserved-field and
buffer-capacity checks, returns the ABORTED error (which differs from the
INVALID_PARAMETERS error) and leaves the Ownership Record untouched. -/
theorem claim_C4 (func_id len fraglen addr_mbz npages_mbz : Nat)
    (hostTx : Option MemRegionBuf) (own : OwnState) (xferRes : SmccRes)
    (hmbz1 : addr_mbz = 0) (hmbz2 : npages_mbz = 0)
    (hlt : fraglen < len)
    (hcap : fraglen ≤ KVM_FFA_MBOX_NR_PAGES * PAGE_SIZE) :
    do_ffa_mem_xfer func_id len fraglen addr_mbz npages_mbz hostTx own xferRes =
      ⟨ffa_to_smccc_res FFA_RET_ABORTED, own, false, none⟩ ∧
    ffa_to_smccc_res FFA_RET_ABORTED ≠ ffa_to_smccc_res FFA_RET_INVALID_PARAMETERS := by
  refine ⟨?_, by decide⟩
  simp only [do_ffa_mem_xfer]
  rw [if_neg (by omega), if_pos hlt]

/-- Witness for C4: spec scenario C, `fraglen = 10`, `len = 20`. -/
theorem claim_C4_witness :
    do_ffa_mem_xfer FFA_FN64_MEM_SHARE 20 10 0 0 (some sampleBuf) ownAllOwned sampleErrRes =
      ⟨ffa_to_smccc_res FFA_RET_ABORTED, ownAllOwned, false, none⟩ :=
  (claim_C4 FFA_FN64_MEM_SHARE 20 10 0 0 (some sampleBuf) ownAllOwned sampleErrRes
    (by decide) (by decide) (by decide) (by decide)).1

/-- C5: a staged descriptor with an endpoint-access entry count other than
exactly 1, or a sender identity other than the fixed host identity, or a
composite-region offset that is zero or whose composite header does not fit
within the fragment, makes the call return the INVALID_PARAMETERS error with
no ownership mutation: the share engine is never invoked and nothing is
forwarded downstream. -/
theorem claim_C5 (func_id len fraglen : Nat) (buf : MemRegionBuf)
    (own : OwnState) (xferRes : SmccRes)
    (hfrag : fraglen = len)
    (hcap : fraglen ≤ KVM_FFA_MBOX_NR_PAGES * PAGE_SIZE)
    (hhdr : sizeof_ffa_mem_region + sizeof_ffa_mem_region_attributes ≤ fraglen)
    (hbad : buf.ep_count ≠ 1 ∨ buf.sender_id ≠ HOST_FFA_ID ∨ buf.composite_off = 0 ∨
      fraglen < buf.composite_off + sizeof_ffa_composite_mem_region) :
    do_ffa_mem_xfer func_id len fraglen 0 0 (some buf) own xferRes =
      ⟨ffa_to_smccc_res FFA_RET_INVALID_PARAMETERS, own, false, none⟩ := by
  simp only [do_ffa_mem_xfer]
  rw [if_neg (by omega), if_neg (by omega), if_neg (by omega)]
  by_cases hc : buf.composite_off = 0 ∨ buf.ep_count ≠ 1 ∨ buf.sender_id ≠ HOST_FFA_ID
  · rw [if_pos hc]
  · rw [if_neg hc, if_pos (by omega)]

/-- Witness for C5: a descriptor with two endpoint-access entries. -/
theorem claim_C5_witness :
    do_ffa_mem_xfer FFA_FN64_MEM_SHARE 64 64 0 0
        (some ⟨0, 2, 32, [⟨0x10000, 1⟩]⟩) ownAllOwned sampleErrRes =
      ⟨ffa_to_smccc_res FFA_RET_INVALID_PARAMETERS, ownAllOwned, false, none⟩ :=
  claim_C5 FFA_FN64_MEM_SHARE 64 64 ⟨0, 2, 32, [⟨0x10000, 1⟩]⟩ ownAllOwned sampleErrRes
    (by decide) (by decide) (by decide) (by decide)

/-- C6: on a reclaim, a fragmented downstream retrieve-response (returned
register a1 differs from a2) makes the mediator return the ABORTED error
without ever issuing the reclaim call downstream; and a downstream answer
without the retrieve-response tag is passed through unchanged, also without
issuing the reclaim call. -/
theorem claim_C6 (handle_lo handle_hi flags : Nat) (retrieveRes : SmccRes)
    (rxBuf : MemRegionBuf) (reclaimRes : SmccRes) (own : OwnState) :
    (retrieveRes.a0 = FFA_MEM_RETRIEVE_RESP → retrieveRes.a1 ≠ retrieveRes.a2 →
      do_ffa_mem_reclaim handle_lo handle_hi flags retrieveRes rxBuf reclaimRes own =
        ⟨ffa_to_smccc_res FFA_RET_ABORTED, own, none⟩) ∧
    (retrieveRes.a0 ≠ FFA_MEM_RETRIEVE_RESP →
      do_ffa_mem_reclaim handle_lo handle_hi flags retrieveRes rxBuf reclaimRes own =
        ⟨retrieveRes, own, none⟩) := by
  constructor
  · intro htag hfragd
    simp only [do_ffa_mem_reclaim]
    rw [if_neg (fun hc => hc htag), if_pos hfragd]
  · intro htag
    simp only [do_ffa_mem_reclaim]
    rw [if_pos htag]

def sampleFragRes : SmccRes := ⟨FFA_MEM_RETRIEVE_RESP, 100, 48, 0⟩

def sampleOtherRes : SmccRes := ⟨FFA_ERROR, 0, u64OfInt FFA_RET_INVALID_PARAMETERS, 0⟩

/-- Witness for C6: a fragmented retrieve-response yields ABORTED with no
reclaim call, and a non-retrieve-response answer is passed through. -/
theorem claim_C6_witness :
    do_ffa_mem_reclaim 1 0 0 sampleFragRes sampleBuf sampleErrRes ownAllOwned =
      ⟨ffa_to_smccc_res FFA_RET_ABORTED, ownAllOwned, none⟩ ∧
    do_ffa_mem_reclaim 1 0 0 sampleOtherRes sampleBuf sampleErrRes ownAllOwned =
      ⟨sampleOtherRes, ownAllOwned, none⟩ :=
  ⟨(claim_C6 1 0 0 sampleFragRes sampleBuf sampleErrRes ownAllOwned).1
      (by decide) (by decide),
   (claim_C6 1 0 0 sampleOtherRes sampleBuf sampleErrRes ownAllOwned).2 (by decide)⟩

/-! ## Helpers for the RXTX grant record -/

theorem ffa_to_smccc_res_of_ne {ret : Int} (h : ret ≠ FFA_RET_SUCCESS) :
    ffa_to_smccc_res ret = ffa_to_smccc_error ret := by
  simp only [ffa_to_smccc_res, ffa_to_smccc_res_prop]
  rw [if_neg h]

theorem share_hyp_eq_some {granted ungrantable : Nat → Bool} {pfn : Nat}
    {g : Nat → Bool} (h : pkvm_host_share_hyp granted ungrantable pfn = some g) :
    (ungrantable pfn || granted pfn) = false ∧
    g = fun p => if p = pfn then true else granted p := by
  unfold pkvm_host_share_hyp at h
  split at h
  · exact absurd h (by simp)
  · next hcond => exact ⟨by simpa using hcond, (Option.some.inj h).symm⟩

/-- Revoking a grant just made restores the grant record exactly. -/
theorem unshare_after_share_hyp {granted ungrantable : Nat → Bool} {pfn : Nat}
    {g : Nat → Bool} (h : pkvm_host_share_hyp granted ungrantable pfn = some g) :
    (pkvm_host_unshare_hyp g pfn).getD g = granted := by
  obtain ⟨hcond, rfl⟩ := share_hyp_eq_some h
  unfold pkvm_host_unshare_hyp
  rw [if_pos (by simp)]
  simp only [Option.getD_some]
  funext p
  by_cases hp : p = pfn
  · subst hp
    simp only [if_pos rfl]
    have : granted p = false := by
      rcases Bool.or_eq_false_iff.mp hcond with ⟨-, h2⟩
      exact h2
    exact this.symm
  · simp [hp]

/-- C7: for a buffer-pair map request, an already-existing mapping (with
valid geometry and alignment) is refused with the DENIED error leaving the
mapping and grant record unchanged; a page count different from the
negotiated geometry or a misaligned physical address is refused with the
INVALID_PARAMETERS error; the call succeeds only when no mapping exists, both
addresses are page-aligned and the page count matches exactly; and every
failing outcome leaves the mapping and all page grants exactly as before the
call (grants made along the way are unwound). -/
theorem claim_C7 (txA rxA npages : Nat) (st_tx st_rx : Option Nat)
    (granted ungrantable : Nat → Bool) (mapRes : SmccRes) :
    (npages = KVM_FFA_MBOX_NR_PAGES * PAGE_SIZE / FFA_PAGE_SIZE →
      txA % PAGE_SIZE = 0 → rxA % PAGE_SIZE = 0 → st_tx.isSome →
      (do_ffa_rxtx_map txA rxA npages st_tx st_rx granted ungrantable mapRes).res =
        ffa_to_smccc_res FFA_RET_DENIED ∧
      (do_ffa_rxtx_map txA rxA npages st_tx st_rx granted ungrantable mapRes).tx = st_tx ∧
      (do_ffa_rxtx_map txA rxA npages st_tx st_rx granted ungrantable mapRes).rx = st_rx ∧
      (do_ffa_rxtx_map txA rxA npages st_tx st_rx granted ungrantable mapRes).granted =
        granted) ∧
    (npages ≠ KVM_FFA_MBOX_NR_PAGES * PAGE_SIZE / FFA_PAGE_SIZE ∨
        ¬(txA % PAGE_SIZE = 0 ∧ rxA % PAGE_SIZE = 0) →
      (do_ffa_rxtx_map txA rxA npages st_tx st_rx granted ungrantable mapRes).res =
        ffa_to_smccc_res FFA_RET_INVALID_PARAMETERS) ∧
    ((do_ffa_rxtx_map txA rxA npages st_tx st_rx granted ungrantable mapRes).res.a0 =
        FFA_SUCCESS →
      npages = KVM_FFA_MBOX_NR_PAGES * PAGE_SIZE / FFA_PAGE_SIZE ∧
      txA % PAGE_SIZE = 0 ∧ rxA % PAGE_SIZE = 0 ∧ st_tx = none) ∧
    ((do_ffa_rxtx_map txA rxA npages st_tx st_rx granted ungrantable mapRes).res.a0 ≠
        FFA_SUCCESS →
      (do_ffa_rxtx_map txA rxA npages st_tx st_rx granted ungrantable mapRes).tx = st_tx ∧
      (do_ffa_rxtx_map txA rxA npages st_tx st_rx granted ungrantable mapRes).rx = st_rx ∧
      (do_ffa_rxtx_map txA rxA npages st_tx st_rx granted ungrantable mapRes).granted =
        granted) := by
  have hres_ne : ∀ ret : Int, ret ≠ FFA_RET_SUCCESS →
      (ffa_to_smccc_res ret).a0 ≠ FFA_SUCCESS := by
    intro ret h
    rw [ffa_to_smccc_res_of_ne h]
    show FFA_ERROR ≠ FFA_SUCCESS
    decide
  refine ⟨?_, ?_, ?_, ?_⟩
  · intro hn ha1 ha2 hsome
    simp only [do_ffa_rxtx_map]
    rw [if_neg (fun hc => hc hn), if_neg (fun hc => hc ⟨ha1, ha2⟩), if_pos hsome]
    exact ⟨rfl, rfl, rfl, rfl⟩
  · intro h
    simp only [do_ffa_rxtx_map]
    by_cases h1 : npages ≠ KVM_FFA_MBOX_NR_PAGES * PAGE_SIZE / FFA_PAGE_SIZE
    · rw [if_pos h1]
    · rw [if_neg h1, if_pos (h.resolve_left h1)]
  · simp only [do_ffa_rxtx_map]
    by_cases h1 : npages ≠ KVM_FFA_MBOX_NR_PAGES * PAGE_SIZE / FFA_PAGE_SIZE
    · rw [if_pos h1]
      exact fun hc => absurd hc (hres_ne _ (by decide))
    · rw [if_neg h1]
      by_cases h2 : txA % PAGE_SIZE = 0 ∧ rxA % PAGE_SIZE = 0
      · rw [if_neg (fun hc => hc h2)]
        by_cases h3 : st_tx.isSome
        · rw [if_pos h3]
          exact fun hc => absurd hc (hres_ne _ (by decide))
        · rw [if_neg h3]
          by_cases h4 : (if mapRes.a0 = FFA_SUCCESS then FFA_RET_SUCCESS
              else intOfU32 mapRes.a2) ≠ 0
          · rw [if_pos h4]
            exact fun hc => absurd hc (hres_ne _ h4)
          · rw [if_neg h4]
            cases hg1 : pkvm_host_share_hyp granted ungrantable (txA / PAGE_SIZE) with
            | none =>
              dsimp only
              exact fun hc => absurd hc (hres_ne _ (by decide))
            | some g1 =>
              dsimp only
              cases hg2 : pkvm_host_share_hyp g1 ungrantable (rxA / PAGE_SIZE) with
              | none =>
                dsimp only
                exact fun hc => absurd hc (hres_ne _ (by decide))
              | some g2 =>
                exact fun hc =>
                  ⟨not_not.mp h1, h2.1, h2.2, Option.not_isSome_iff_eq_none.mp h3⟩
      · rw [if_pos h2]
        exact fun hc => absurd hc (hres_ne _ (by decide))
  · intro hfail
    simp only [do_ffa_rxtx_map] at hfail ⊢
    by_cases h1 : npages ≠ KVM_FFA_MBOX_NR_PAGES * PAGE_SIZE / FFA_PAGE_SIZE
    · rw [if_pos h1]
      exact ⟨rfl, rfl, rfl⟩
    · rw [if_neg h1] at hfail ⊢
      by_cases h2 : txA % PAGE_SIZE = 0 ∧ rxA % PAGE_SIZE = 0
      · rw [if_neg (fun hc => hc h2)] at hfail ⊢
        by_cases h3 : st_tx.isSome
        · rw [if_pos h3]
          exact ⟨rfl, rfl, rfl⟩
        · rw [if_neg h3] at hfail ⊢
          by_cases h4 : (if mapRes.a0 = FFA_SUCCESS then FFA_RET_SUCCESS
              else intOfU32 mapRes.a2) ≠ 0
          · rw [if_pos h4]
            exact ⟨rfl, rfl, rfl⟩
          · rw [if_neg h4] at hfail ⊢
            cases hg1 : pkvm_host_share_hyp granted ungrantable (txA / PAGE_SIZE) with
            | none => exact ⟨rfl, rfl, rfl⟩
            | some g1 =>
              rw [hg1] at hfail
              dsimp only at hfail ⊢
              cases hg2 : pkvm_host_share_hyp g1 ungrantable (rxA / PAGE_SIZE) with
              | none =>
                dsimp only
                exact ⟨rfl, rfl, unshare_after_share_hyp hg1⟩
              | some g2 =>
                rw [hg2] at hfail
                dsimp only at hfail
                exact absurd rfl hfail
      · rw [if_pos h2]
        exact ⟨rfl, rfl, rfl⟩

def grantedNone : Nat → Bool := fun _ => false

def sampleOkRes : SmccRes := ⟨FFA_SUCCESS, 0, 0, 0⟩

def sampleSpmd : Spmd := ⟨sampleOkRes, sampleOkRes, sampleOkRes, sampleOkRes, sampleBuf⟩

/-- Witness for C7: a second map with valid geometry is refused with DENIED,
and a map with page count 2 (geometry mismatch) is refused with
INVALID_PARAMETERS. -/
theorem claim_C7_witness :
    (do_ffa_rxtx_map 0x1000 0x2000 1 (some 0x3000) (some 0x4000) grantedNone grantedNone
        sampleOkRes).res = ffa_to_smccc_res FFA_RET_DENIED ∧
    (do_ffa_rxtx_map 0x1000 0x2000 2 none none grantedNone grantedNone
        sampleOkRes).res = ffa_to_smccc_res FFA_RET_INVALID_PARAMETERS :=
  ⟨((claim_C7 0x1000 0x2000 1 (some 0x3000) (some 0x4000) grantedNone grantedNone
      sampleOkRes).1 (by decide) (by decide) (by decide) (by decide)).1,
   (claim_C7 0x1000 0x2000 2 none none grantedNone grantedNone sampleOkRes).2.1
      (Or.inl (by decide))⟩

/-- Counterexample for C8: the fragment-continuation transmit id
FFA_MEM_FRAG_TX is not rejected as NOT_SUPPORTED: the dispatcher declines to
handle it (passes it through to the default path), and the feature query
also declines instead of answering NOT_SUPPORTED. -/
theorem claim_C8_counterexample :
    (kvm_host_ffa_handler FFA_MEM_FRAG_TX 0 0 0 0 none none sampleBuf ownAllOwned
        grantedNone grantedNone sampleSpmd).handled = false ∧
    do_ffa_features FFA_MEM_FRAG_TX = none :=
  ⟨rfl, rfl⟩

/-- C8 (amended): every function id in the explicitly-enumerated unsupported
set (indirect messaging, donation, relinquish, fragment-continuation receive
FFA_MEM_FRAG_RX, the 32-bit legacy duplicates of 64-bit calls, and the
32-bit-address RX/TX map variant) is rejected with the NOT_SUPPORTED error
both by the call dispatcher and by the feature-query path, for every
invocation; the fragment-continuation transmit id FFA_MEM_FRAG_TX, however,
is not in that set: both the dispatcher and the feature query pass it
through instead of rejecting it. -/
theorem claim_C8_amended (r1 r2 r3 r4 : Nat) (tx rx : Option Nat)
    (txContent : MemRegionBuf) (own : OwnState) (granted ungrantable : Nat → Bool)
    (spmd : Spmd) :
    (∀ id, id ∈ unsupCalls →
      kvm_host_ffa_handler id r1 r2 r3 r4 tx rx txContent own granted ungrantable spmd =
        ⟨true, ffa_to_smccc_error FFA_RET_NOT_SUPPORTED, own, tx, rx, granted⟩ ∧
      kvm_host_ffa_handler FFA_FEATURES id r2 r3 r4 tx rx txContent own granted
          ungrantable spmd =
        ⟨true, ffa_to_smccc_error FFA_RET_NOT_SUPPORTED, own, tx, rx, granted⟩) ∧
    (kvm_host_ffa_handler FFA_MEM_FRAG_TX r1 r2 r3 r4 tx rx txContent own granted
        ungrantable spmd).handled = false ∧
    do_ffa_features FFA_MEM_FRAG_TX = none := by
  refine ⟨?_, rfl, rfl⟩
  intro id hid
  fin_cases hid <;> exact ⟨rfl, rfl⟩

/-- Witness for C8 (amended): the indirect-messaging send id is rejected as
NOT_SUPPORTED by the dispatcher. -/
theorem claim_C8_witness :
    kvm_host_ffa_handler FFA_MSG_SEND 0 0 0 0 none none sampleBuf ownAllOwned
        grantedNone grantedNone sampleSpmd =
      ⟨true, ffa_to_smccc_error FFA_RET_NOT_SUPPORTED, ownAllOwned, none, none,
        grantedNone⟩ :=
  ((claim_C8_amended 0 0 0 0 none none sampleBuf ownAllOwned grantedNone grantedNone
    sampleSpmd).1 FFA_MSG_SEND (by decide)).1

/-- C9: the feature query answers NOT_SUPPORTED for every function id in the
explicitly-unsupported set; answers SUCCESS with a zero property value for
the share and lend transfer ids (32- and 64-bit variants); and declines to
handle every other id, so such queries pass through unmediated. -/
theorem claim_C9 :
    (∀ id, id ∈ unsupCalls →
      do_ffa_features id = some (ffa_to_smccc_error FFA_RET_NOT_SUPPORTED)) ∧
    (∀ id, id = FFA_MEM_SHARE ∨ id = FFA_FN64_MEM_SHARE ∨ id = FFA_MEM_LEND ∨
        id = FFA_FN64_MEM_LEND →
      do_ffa_features id = some ⟨FFA_SUCCESS, 0, 0, 0⟩) ∧
    (∀ id, id ∉ unsupCalls →
      ¬(id = FFA_MEM_SHARE ∨ id = FFA_FN64_MEM_SHARE ∨ id = FFA_MEM_LEND ∨
        id = FFA_FN64_MEM_LEND) →
      do_ffa_features id = none) := by
  refine ⟨?_, ?_, ?_⟩
  · intro id hid
    fin_cases hid <;> rfl
  · rintro id (rfl | rfl | rfl | rfl) <;> rfl
  · intro id h1 h2
    have hnc : ¬(ffa_call_unsupported id = true) := by
      simp only [ffa_call_unsupported]
      intro hc
      exact h1 (by simpa using hc)
    simp only [do_ffa_features]
    rw [if_neg hnc, if_neg h2]

/-- Witness for C9: relinquish is answered NOT_SUPPORTED, 64-bit share is
answered SUCCESS with zero properties, and buffer unmap is declined. -/
theorem claim_C9_witness :
    do_ffa_features FFA_MEM_RELINQUISH = some (ffa_to_smccc_error FFA_RET_NOT_SUPPORTED) ∧
    do_ffa_features FFA_FN64_MEM_SHARE = some ⟨FFA_SUCCESS, 0, 0, 0⟩ ∧
    do_ffa_features FFA_RXTX_UNMAP = none :=
  ⟨claim_C9.1 FFA_MEM_RELINQUISH (by decide),
   claim_C9.2.1 FFA_FN64_MEM_SHARE (Or.inr (Or.inl rfl)),
   claim_C9.2.2 FFA_RXTX_UNMAP (by decide) (by decide)⟩

/-- C10: a share or lend transfer issued while no RXTX buffer mapping exists
(the recorded host tx buffer is null) returns the INVALID_PARAMETERS error,
mutates no ownership state (engine not invoked) and forwards nothing to the
downstream authority, even though the request is otherwise well-formed. -/
theorem claim_C10 (func_id len fraglen : Nat) (own : OwnState) (xferRes : SmccRes)
    (hfrag : fraglen = len)
    (hcap : fraglen ≤ KVM_FFA_MBOX_NR_PAGES * PAGE_SIZE)
    (hhdr : sizeof_ffa_mem_region + sizeof_ffa_mem_region_attributes ≤ fraglen) :
    do_ffa_mem_xfer func_id len fraglen 0 0 none own xferRes =
      ⟨ffa_to_smccc_res FFA_RET_INVALID_PARAMETERS, own, false, none⟩ := by
  simp only [do_ffa_mem_xfer]
  rw [if_neg (by omega), if_neg (by omega), if_neg (by omega)]

/-- Witness for C10: a well-formed 64-byte share with no mapping recorded. -/
theorem claim_C10_witness :
    do_ffa_mem_xfer FFA_FN64_MEM_SHARE 64 64 0 0 none ownAllOwned sampleOkRes =
      ⟨ffa_to_smccc_res FFA_RET_INVALID_PARAMETERS, ownAllOwned, false, none⟩ :=
  claim_C10 FFA_FN64_MEM_SHARE 64 64 ownAllOwned sampleOkRes (by decide) (by decide)
    (by decide)
